import Mathlib

/-!
Verification of the neon `napi/serde` transcoder (crates/neon-runtime/src/napi/serde/).

The development shallowly embeds the serde serializer (se.rs), deserializer (de.rs),
accessor protocol and error taxonomy (error.rs) over a model of the JavaScript
dynamic value space.  JavaScript numbers are modelled as rationals: the code under
verification performs no floating point arithmetic, only storage, retrieval,
range comparison and truncation of doubles, and every concrete constant appearing
in the claims is exactly representable, so the rational model is faithful on all
inputs considered here.

External collaborators are modelled as follows, with the model documented at each
definition:

* N-API value primitives (js.rs wrappers around `napi_*` calls): modelled from the
  N-API contract referenced by the code; in particular `napi_get_value_string_utf8`
  fails with `napi_string_expected` on every non-String value, and
  `napi_typeof` reports `object` for arrays and array buffers.
* The `conv` crate (version 0.3), used by se.rs and de.rs for numeric casts:
  `ValueFrom` conversions from i64/u64 to f64 are exact value-preserving
  conversions that reject integers outside the f64 integer-exact range of
  magnitude 2^53 (this is why error.rs provides `From` conversions for
  `RangeError<i64>` and `PosOverflow<u64>`), and `ApproxFrom` with the
  `DefaultApprox` scheme is a bounds-checked truncating (round toward zero)
  float-to-int cast.
* The serde framework visitors are the canonical derived implementations: the
  derived struct visitor ignores unknown fields, rejects duplicate fields and
  defaults a missing `Option` field to `None`; the derived enum visitor reads the
  variant identifier through `deserialize_identifier`; `deserialize_any` is paired
  with a self-describing value visitor in the style of `serde_json::Value`.
-/

namespace NeonSerde

/-- Tag returned by the N-API type-of operation (`napi_valuetype`).  Arrays and
buffers report `object`; the tags below `object` are the ones de.rs dispatches on,
the remaining tags are the unsupported ones. -/
inductive ValueType where
  | undefined
  | null
  | boolean
  | number
  | string
  | symbol
  | object
  | function
  | external
  | bigint
deriving DecidableEq, Repr

/-- Model of a JavaScript dynamic value.  Objects carry their own enumerable
string-keyed properties in insertion order; arrays carry their elements; buffers
carry their bytes.  Functions, symbols, externals and bigints are opaque carriers
used only for kind-tag dispatch. -/
inductive JSValue where
  | undefined
  | null
  | boolean (b : Bool)
  | number (q : ℚ)
  | string (s : String)
  | object (fields : List (String × JSValue))
  | array (elems : List JSValue)
  | buffer (bytes : List Nat)
  | function (id : Nat)
  | symbol (id : Nat)
  | external (id : Nat)
  | bigint (n : Int)

/-- N-API status codes returned by the primitive layer (napi::Status). -/
inductive NapiStatus where
  | stringExpected
  | numberExpected
  | booleanExpected
  | arrayExpected
  | objectExpected
  | invalidArg
  | pendingException
  | genericFailure
deriving DecidableEq, Repr

/-- conv::FloatError, produced by checked float-to-int approximation. -/
inductive FloatErr where
  | notANumber
  | negOverflow (src : ℚ)
  | posOverflow (src : ℚ)
deriving DecidableEq, Repr

/-- conv::RangeError over i64, produced by checked i64-to-f64 widening. -/
inductive RangeErrI64 where
  | negOverflow (v : Int)
  | posOverflow (v : Int)
deriving DecidableEq, Repr

/-- ErrorKind of error.rs, folded into the public Error type (which is a single
struct wrapping this enum). -/
inductive Error where
  | custom (msg : String)
  | missingKey
  | floatError (e : FloatErr)
  | i64Error (e : RangeErrI64)
  | u64Error (v : Int)
  | usizeError (v : Nat)
  | expectedNull
  | expectedString
  | unsupportedType (t : ValueType)
  | napi (s : NapiStatus)
deriving DecidableEq, Repr

/-- Fixed integer widths handled by the serializer and deserializer. -/
inductive IntWidth where
  | i8 | i16 | i32 | i64 | u8 | u16 | u32 | u64
deriving DecidableEq, Repr

mutual
/-- Static shape requested from the deserializer: the serde data-model types the
claims exercise.  `dyn` is the self-describing shape served by `deserialize_any`
(doc comment of de.rs: used for types like serde_json::Value). -/
inductive Shape where
  | bool
  | int (w : IntWidth)
  | f64
  | str
  | bytes
  | option (t : Shape)
  | unit
  | unitStruct
  | newtype (t : Shape)
  | seq (t : Shape)
  | map (t : Shape)
  | struct (fields : List (String × Shape))
  | enum (variants : List (String × VariantShape))
  | dyn

/-- Shape of one enum variant. -/
inductive VariantShape where
  | unit
  | newtype (t : Shape)
  | tuple (ts : List Shape)
  | structV (fields : List (String × Shape))
end

/-- Static value of the serde data model (the typed side of the transcoder).
Variant values carry their variant wire name; the statically-known type names
ignored by se.rs (`_name` parameters) are not carried. -/
inductive SValue where
  | vBool (b : Bool)
  | vInt (w : IntWidth) (v : Int)
  | vF64 (q : ℚ)
  | vStr (s : String)
  | vBytes (bytes : List Nat)
  | vNone
  | vSome (x : SValue)
  | vUnit
  | vUnitStruct
  | vNewtype (x : SValue)
  | vSeq (xs : List SValue)
  | vTuple (xs : List SValue)
  | vMap (entries : List (String × SValue))
  | vStruct (fields : List (String × SValue))
  | vUnitVariant (name : String)
  | vNewtypeVariant (name : String) (x : SValue)
  | vTupleVariant (name : String) (xs : List SValue)
  | vStructVariant (name : String) (fields : List (String × SValue))

/-! ## N-API primitive layer (js.rs)

Modelled from the N-API contract the js.rs wrappers rely on.  Each wrapper
returns `Result<_, napi::Status>`; a non-Ok status is converted by `?` and
`From<napi::Status> for Error` into `Error::Napi(status)` at the call site. -/

/-- napi_typeof as wrapped by js.rs typeof_value.  Arrays and array buffers
report `object`.  The model treats the call as infallible. -/
def typeofValue : JSValue → ValueType
  | .undefined => .undefined
  | .null => .null
  | .boolean _ => .boolean
  | .number _ => .number
  | .string _ => .string
  | .object _ => .object
  | .array _ => .object
  | .buffer _ => .object
  | .function _ => .function
  | .symbol _ => .symbol
  | .external _ => .external
  | .bigint _ => .bigint

/-- True when the dynamic kind tag is Null or Undefined. -/
def isNullish (v : JSValue) : Bool :=
  match typeofValue v with
  | .null => true
  | .undefined => true
  | _ => false

/-- js.rs get_value_bool: napi_get_value_bool, strict (no coercion). -/
def getValueBool : JSValue → Except NapiStatus Bool
  | .boolean b => .ok b
  | _ => .error .booleanExpected

/-- js.rs get_value_double: napi_get_value_double, strict (no coercion). -/
def getValueDouble : JSValue → Except NapiStatus ℚ
  | .number q => .ok q
  | _ => .error .numberExpected

/-- js.rs get_value_string: two-step napi_get_value_string_utf8; fails with
napi_string_expected on every non-String value. -/
def getValueString : JSValue → Except NapiStatus String
  | .string s => .ok s
  | _ => .error .stringExpected

/-- js.rs get_value_arraybuffer: napi_get_arraybuffer_info, copies the bytes;
fails on non-ArrayBuffer values. -/
def getValueArraybuffer : JSValue → Except NapiStatus (List Nat)
  | .buffer bs => .ok bs
  | _ => .error .invalidArg

/-- js.rs get_array_len: napi_get_array_length; fails on non-Array values. -/
def getArrayLen : JSValue → Except NapiStatus Nat
  | .array elems => .ok elems.length
  | _ => .error .arrayExpected

/-- js.rs get_array_element: napi_get_element.  On arrays an out-of-bounds read
yields `undefined`; on plain objects it reads the index-named property; on a
missing target it fails. -/
def getArrayElement : JSValue → Nat → Except NapiStatus JSValue
  | .array elems, i => .ok (elems.getD i .undefined)
  | .object fields, i => .ok (((fields.lookup (toString i)).getD .undefined))
  | .undefined, _ => .error .invalidArg
  | .null, _ => .error .invalidArg
  | _, _ => .ok .undefined

/-- Own enumerable string-keyed property names, in insertion order, as the list
underlying the Array produced by napi_get_property_names.  Arrays enumerate their
indices; buffers have no enumerable own properties; null and undefined cannot be
coerced to objects and leave a pending TypeError. -/
def propertyKeysE : JSValue → Except NapiStatus (List String)
  | .object fields => .ok (fields.map Prod.fst)
  | .array elems => .ok ((List.range elems.length).map toString)
  | .buffer _ => .ok []
  | .string s => .ok ((List.range s.length).map toString)
  | .undefined => .error .pendingException
  | .null => .error .pendingException
  | _ => .ok []

/-- js.rs get_property_names: returns the key snapshot as a JavaScript Array of
strings. -/
def getPropertyNames (v : JSValue) : Except NapiStatus JSValue :=
  (propertyKeysE v).map (fun ks => .array (ks.map .string))

/-- JavaScript ToPropertyKey coercion for the key values that can reach
get_property in this code base (strings from key snapshots, or `undefined` from
an out-of-bounds element read). -/
def keyToString : JSValue → String
  | .string s => s
  | .undefined => "undefined"
  | .null => "null"
  | .boolean b => cond b "true" "false"
  | .number q => toString q
  | _ => "object"

/-- Property read by string key: napi_get_property after key coercion.  Missing
properties read as `undefined`; null and undefined targets leave a pending
TypeError. -/
def getPropertyStr : JSValue → String → Except NapiStatus JSValue
  | .object fields, k => .ok ((fields.lookup k).getD .undefined)
  | .array elems, k => .ok ((k.toNat?.bind (elems.get? ·)).getD .undefined)
  | .buffer _, _ => .ok .undefined
  | .undefined, _ => .error .pendingException
  | .null, _ => .error .pendingException
  | _, _ => .ok .undefined

/-- js.rs get_property. -/
def getProperty (v key : JSValue) : Except NapiStatus JSValue :=
  getPropertyStr v (keyToString key)

/-- Lift a primitive-layer failure into the serde error type
(`From<napi::Status> for Error`). -/
def liftNapi : Except NapiStatus α → Except Error α
  | .ok a => .ok a
  | .error st => .error (.napi st)

/-- JavaScript property write: updates an existing key in place, otherwise
appends.  Models napi_set_property on a plain object. -/
def setProp : List (String × JSValue) → String → JSValue → List (String × JSValue)
  | [], k, v => [(k, v)]
  | (k', v') :: rest, k, v =>
    if k' = k then (k, v) :: rest else (k', v') :: setProp rest k v

/-! ## conv crate model (numeric casts)

Modelled from the conv 0.3 crate used by se.rs (`ValueFrom`) and de.rs
(`ApproxFrom` with `DefaultApprox`). -/

/-- Largest integer magnitude for which every integer is exactly representable
as an f64 (2^53): the bound of the conv crate exact i64/u64 to f64 value
conversions. -/
def maxSafeInt : Int := 9007199254740992

/-- Rust integer type minimum for each width. -/
def rustMin : IntWidth → Int
  | .i8 => -128
  | .i16 => -32768
  | .i32 => -2147483648
  | .i64 => -9223372036854775808
  | .u8 => 0
  | .u16 => 0
  | .u32 => 0
  | .u64 => 0

/-- Rust integer type maximum for each width. -/
def rustMax : IntWidth → Int
  | .i8 => 127
  | .i16 => 32767
  | .i32 => 2147483647
  | .i64 => 9223372036854775807
  | .u8 => 255
  | .u16 => 65535
  | .u32 => 4294967295
  | .u64 => 18446744073709551615

/-- The value of `MIN as f64` used in the conv range check: exact for every
width (integer type minima are powers of two). -/
def boundMinF : IntWidth → Int := rustMin

/-- The value of `MAX as f64` used in the conv range check: exact except for
i64 and u64, whose maxima round up to 2^63 and 2^64 respectively. -/
def boundMaxF : IntWidth → Int
  | .i64 => 9223372036854775808
  | .u64 => 18446744073709551616
  | w => rustMax w

/-- Truncation toward zero, the rounding of a Rust float-to-int `as` cast. -/
def ratTrunc (q : ℚ) : Int := if 0 ≤ q then ⌊q⌋ else ⌈q⌉

/-- Saturation applied by a Rust float-to-int `as` cast to the (only reachable
at the i64/u64 upper bound) out-of-range truncated value. -/
def satAs (w : IntWidth) (n : Int) : Int :=
  max (rustMin w) (min n (rustMax w))

/-- conv ApproxFrom with the DefaultApprox scheme, f64 source: NaN is rejected
(unrepresentable in the rational model), the unrounded source is range-checked
against the target bounds as doubles, then cast with `as` (truncation toward
zero).  Produces the FloatError payload carrying the source value. -/
def approxCast (w : IntWidth) (q : ℚ) : Except FloatErr Int :=
  if q < (boundMinF w : ℚ) then .error (.negOverflow q)
  else if (boundMaxF w : ℚ) < q then .error (.posOverflow q)
  else .ok (satAs w (ratTrunc q))

/-! ## Serializer (se.rs)

`to_value` is the driver of mod.rs: `value.serialize(Serializer::new(env))`.
The JavaScript construction primitives (create_double, create_string,
create_object, set_property, ...) cannot fail in the model, matching the
success path of the fallible wrappers; the `WrappedArraySerializer` and
`WrappedObjectSerializer` mutate the inner container after linking it into the
wrapper object, so their net result is the wrapper holding the filled
container, which is what the model builds directly. -/

mutual
/-- Serialize one static value to a JavaScript value, mirroring the
`ser::Serializer` implementation of se.rs case by case. -/
def to_value : SValue → Except Error JSValue
  | .vBool b => .ok (.boolean b)
  | .vInt w n =>
    match w with
    | .i64 =>
      if n < -maxSafeInt then .error (.i64Error (.negOverflow n))
      else if maxSafeInt < n then .error (.i64Error (.posOverflow n))
      else .ok (.number (n : ℚ))
    | .u64 =>
      if maxSafeInt < n then .error (.u64Error n) else .ok (.number (n : ℚ))
    | _ => .ok (.number (n : ℚ))
  | .vF64 q => .ok (.number q)
  | .vStr s => .ok (.string s)
  | .vBytes bs => .ok (.buffer bs)
  | .vNone => .ok .null
  | .vSome x => to_value x
  | .vUnit => .ok .null
  | .vUnitStruct => .ok .null
  | .vNewtype x => to_value x
  | .vSeq xs => (toValueList xs).map .array
  | .vTuple xs => (toValueList xs).map .array
  | .vMap entries => (toValueFields [] entries).map .object
  | .vStruct fields => (toValueFields [] fields).map .object
  | .vUnitVariant n => .ok (.string n)
  | .vNewtypeVariant n x => (to_value x).map (fun jv => .object [(n, jv)])
  | .vTupleVariant n xs => (toValueList xs).map (fun arr => .object [(n, .array arr)])
  | .vStructVariant n fields =>
    (toValueFields [] fields).map (fun o => .object [(n, .object o)])

/-- ArraySerializer: serialize each element, then set_element at the running
offset.  The net array contents are the serialized elements in order. -/
def toValueList : List SValue → Except Error (List JSValue)
  | [] => .ok []
  | x :: xs =>
    match to_value x with
    | .error e => .error e
    | .ok jv => (toValueList xs).map (jv :: ·)

/-- ObjectSerializer fed through serialize_entry (the path used for maps and
structs): serialize the value, then set_property on the accumulated object. -/
def toValueFields (acc : List (String × JSValue)) :
    List (String × SValue) → Except Error (List (String × JSValue))
  | [] => .ok acc
  | (k, x) :: rest =>
    match to_value x with
    | .error e => .error e
    | .ok jv => toValueFields (setProp acc k jv) rest
end

/-! ## Termination measures for the deserializer

The deserializer recursion is driven lexicographically by the weight of the
requested shape, a size of the dynamic value being read, a phase bit and the
number of snapshot keys left to traverse.  `wtShape` gives `dyn` a weight above
the scalar shapes because `deserialize_any` re-dispatches to the scalar decode
of the same value. -/

mutual
def wtShape : Shape → Nat
  | .bool => 1
  | .int _ => 1
  | .f64 => 1
  | .str => 1
  | .bytes => 1
  | .unit => 1
  | .unitStruct => 1
  | .dyn => 2
  | .option t => 1 + wtShape t
  | .newtype t => 1 + wtShape t
  | .seq t => 1 + wtShape t
  | .map t => 1 + wtShape t
  | .struct fs => 2 + wtFields fs
  | .enum vs => 2 + wtVariants vs

def wtFields : List (String × Shape) → Nat
  | [] => 1
  | (_, sh) :: rest => 1 + wtShape sh + wtFields rest

def wtShapes : List Shape → Nat
  | [] => 1
  | sh :: rest => 1 + wtShape sh + wtShapes rest

def wtVariant : VariantShape → Nat
  | .unit => 1
  | .newtype t => 1 + wtShape t
  | .tuple ts => 1 + wtShapes ts
  | .structV fs => 1 + wtFields fs

def wtVariants : List (String × VariantShape) → Nat
  | [] => 1
  | (_, vs) :: rest => 1 + wtVariant vs + wtVariants rest
end

mutual
/-- Size of a dynamic value for the termination measure: every value weighs at
least 1, every value that can be read out of another weighs strictly less than
its container, and `undefined` (the result of a missing property read) weighs
strictly less than any container. -/
def jsSize : JSValue → Nat
  | .undefined => 1
  | .null => 1
  | .boolean _ => 2
  | .number _ => 2
  | .string _ => 2
  | .function _ => 2
  | .symbol _ => 2
  | .external _ => 2
  | .bigint _ => 2
  | .buffer _ => 2
  | .object fields => 2 + jsSizeFields fields
  | .array elems => 2 + jsSizeList elems

def jsSizeFields : List (String × JSValue) → Nat
  | [] => 1
  | (_, v) :: rest => 1 + jsSize v + jsSizeFields rest

def jsSizeList : List JSValue → Nat
  | [] => 1
  | v :: rest => 1 + jsSize v + jsSizeList rest
end

theorem jsSize_lookupD_le (l : List (String × JSValue)) (k : String) :
    jsSize ((l.lookup k).getD JSValue.undefined) ≤ jsSizeFields l := by
  induction l with
  | nil => simp [List.lookup, jsSize, jsSizeFields]
  | cons p rest ih =>
    obtain ⟨a, b⟩ := p
    by_cases h : k == a <;> simp [List.lookup, h, jsSizeFields] <;> omega

theorem jsSize_getD_le (l : List JSValue) (i : Nat) :
    jsSize ((l.get? i).getD JSValue.undefined) ≤ jsSizeList l := by
  induction l generalizing i with
  | nil => simp [jsSize, jsSizeList]
  | cons v rest ih =>
    cases i with
    | zero => simp [jsSizeList]; omega
    | succ j =>
      have := ih j
      simp only [List.get?_eq_getElem?] at this ⊢
      simp [jsSizeList]; omega

theorem getPropertyStr_jsSize_lt {o : JSValue} {k : String} {val : JSValue}
    (h : getPropertyStr o k = .ok val) : jsSize val < jsSize o := by
  cases o <;> simp [getPropertyStr] at h
  case object fields =>
    have := jsSize_lookupD_le fields k
    subst h
    simp [jsSize]; omega
  case array elems =>
    subst h
    rcases hk : k.toNat? with _ | i
    · simp [hk, jsSize]
      have : 1 ≤ jsSizeList elems := by
        cases elems <;> simp [jsSizeList] <;> omega
      omega
    · have := jsSize_getD_le elems i
      simp only [List.get?_eq_getElem?] at this
      simp [hk, jsSize]
      omega
  all_goals (subst h; simp [jsSize])

theorem lookup_wtFields_le {fs : List (String × Shape)} {k : String} {sh : Shape}
    (h : fs.lookup k = some sh) : wtShape sh ≤ wtFields fs := by
  induction fs with
  | nil => simp [List.lookup] at h
  | cons p rest ih =>
    obtain ⟨a, b⟩ := p
    by_cases hk : k == a
    · simp [List.lookup, hk] at h
      subst h
      simp [wtFields]; omega
    · simp [List.lookup, hk] at h
      have := ih h
      simp [wtFields]; omega

theorem lookup_wtVariants_le {vars : List (String × VariantShape)} {n : String}
    {vs : VariantShape} (h : vars.lookup n = some vs) :
    wtVariant vs ≤ wtVariants vars := by
  induction vars with
  | nil => simp [List.lookup] at h
  | cons p rest ih =>
    obtain ⟨a, b⟩ := p
    by_cases hk : n == a
    · simp [List.lookup, hk] at h
      subst h
      simp [wtVariants]; omega
    · simp [List.lookup, hk] at h
      have := ih h
      simp [wtVariants]; omega

/-! ## Deserializer (de.rs)

`from_value` is the driver of mod.rs: `T::deserialize(Deserializer::new(env,
value))`, indexed by the requested static shape.  The generic visitor plumbing
is instantiated with the canonical derived visitors; the accessor loops are
written over the key/element snapshots, which on the immutable value model is
exactly the net behavior of `ArrayAccessor`/`ObjectAccessor` (the accessor state
machines themselves are modelled and verified separately below). -/

theorem lex4_left {a a' b b' c c' d d' : Nat} (h : a < a') :
    Prod.Lex (· < ·) (Prod.Lex (· < ·) (Prod.Lex (· < ·) (· < ·)))
      (a, b, c, d) (a', b', c', d') :=
  Prod.Lex.left _ _ h

theorem lex4_second {a b b' c c' d d' : Nat} (h : b < b') :
    Prod.Lex (· < ·) (Prod.Lex (· < ·) (Prod.Lex (· < ·) (· < ·)))
      (a, b, c, d) (a, b', c', d') :=
  Prod.Lex.right _ (Prod.Lex.left _ _ h)

theorem lex4_third {a b c c' d d' : Nat} (h : c < c') :
    Prod.Lex (· < ·) (Prod.Lex (· < ·) (Prod.Lex (· < ·) (· < ·)))
      (a, b, c, d) (a, b, c', d') :=
  Prod.Lex.right _ (Prod.Lex.right _ (Prod.Lex.left _ _ h))

theorem lex4_fourth {a b c d d' : Nat} (h : d < d') :
    Prod.Lex (· < ·) (Prod.Lex (· < ·) (Prod.Lex (· < ·) (· < ·)))
      (a, b, c, d) (a, b, c, d') :=
  Prod.Lex.right _ (Prod.Lex.right _ (Prod.Lex.right _ h))

/-- Derived-visitor completion of a struct decode: fields are rebuilt in
declaration order; a missing field of option shape defaults to None (the serde
missing_field helper visits none for options), any other missing field is an
error. -/
def finishStruct : List (String × Shape) → List (String × SValue) →
    Except Error (List (String × SValue))
  | [], _ => .ok []
  | (name, fsh) :: rest, seen =>
    match seen.lookup name with
    | some sv => (finishStruct rest seen).map ((name, sv) :: ·)
    | none =>
      match fsh with
      | .option _ => (finishStruct rest seen).map ((name, .vNone) :: ·)
      | _ => .error (.custom ("missing field " ++ name))

/-- String branch of deserialize_enum: the string is handed to the derived
visitor through the serde string into_deserializer, whose enum access can only
produce unit variants; unknown names are rejected by the derived identifier
visitor. -/
def decodeUnitVariantStr (vars : List (String × VariantShape)) (s : String) :
    Except Error SValue :=
  match vars.lookup s with
  | none => .error (.custom ("unknown variant " ++ s))
  | some .unit => .ok (.vUnitVariant s)
  | some _ => .error (.custom ("invalid type: unit variant " ++ s))

mutual
/-- Deserialize a JavaScript value at a static shape, mirroring the
`de::Deserializer` implementation of de.rs method by method. -/
def from_value : Shape → JSValue → Except Error SValue
  | .bool, v =>
    match getValueBool v with
    | .error st => .error (.napi st)
    | .ok b => .ok (.vBool b)
  | .int w, v =>
    match getValueDouble v with
    | .error st => .error (.napi st)
    | .ok q =>
      match approxCast w q with
      | .error e => .error (.floatError e)
      | .ok n => .ok (.vInt w n)
  | .f64, v =>
    match getValueDouble v with
    | .error st => .error (.napi st)
    | .ok q => .ok (.vF64 q)
  | .str, v =>
    match getValueString v with
    | .error st => .error (.napi st)
    | .ok s => .ok (.vStr s)
  | .bytes, v =>
    match getValueArraybuffer v with
    | .error st => .error (.napi st)
    | .ok bs => .ok (.vBytes bs)
  | .option t, v =>
    match typeofValue v with
    | .null => .ok .vNone
    | .undefined => .ok .vNone
    | _ => (from_value t v).map .vSome
  | .unit, v =>
    match typeofValue v with
    | .null => .ok .vUnit
    | .undefined => .ok .vUnit
    | _ => .error .expectedNull
  | .unitStruct, v =>
    match typeofValue v with
    | .null => .ok .vUnitStruct
    | .undefined => .ok .vUnitStruct
    | _ => .error .expectedNull
  | .newtype t, v => (from_value t v).map .vNewtype
  | .seq t, v =>
    match v with
    | .array elems => (fromListElems t elems).map .vSeq
    | _ => .error (.napi .arrayExpected)
  | .map tv, v =>
    match propertyKeysE v with
    | .error st => .error (.napi st)
    | .ok keys => (fromMapEntries tv v keys).map .vMap
  | .struct fs, v =>
    match propertyKeysE v with
    | .error st => .error (.napi st)
    | .ok keys => (fromStructFields fs v keys []).map .vStruct
  | .enum vars, v =>
    match v with
    | .string s => decodeUnitVariantStr vars s
    | _ =>
      match getPropertyNames v with
      | .error st => .error (.napi st)
      | .ok keysArr =>
        match getArrayElement keysArr 0 with
        | .error st => .error (.napi st)
        | .ok key0 =>
          match hp : getProperty v key0 with
          | .error st => .error (.napi st)
          | .ok payload =>
            match getValueString v with
            | .error st => .error (.napi st)
            | .ok name =>
              match hvar : vars.lookup name with
              | none => .error (.custom ("unknown variant " ++ name))
              | some .unit => .error .expectedString
              | some (.newtype t) =>
                (from_value t payload).map (.vNewtypeVariant name)
              | some (.tuple ts) =>
                match payload with
                | .array pes => (fromTupleElems ts pes).map (.vTupleVariant name)
                | _ => .error (.napi .arrayExpected)
              | some (.structV fs) =>
                match propertyKeysE payload with
                | .error st => .error (.napi st)
                | .ok pkeys =>
                  (fromStructFields fs payload pkeys []).map (.vStructVariant name)
  | .dyn, v =>
    match typeofValue v with
    | .undefined => from_value .unit v
    | .null => from_value .unit v
    | .boolean => from_value .bool v
    | .number => from_value .f64 v
    | .string => from_value .str v
    | .object =>
      match propertyKeysE v with
      | .error st => .error (.napi st)
      | .ok keys => (fromMapEntries .dyn v keys).map .vMap
    | t => .error (.unsupportedType t)
termination_by sh v => (wtShape sh, jsSize v, 1, 0)
decreasing_by
all_goals simp_wf
all_goals first
  | (apply lex4_third; omega)
  | (apply lex4_left; simp only [wtShape]; omega)
  | (apply lex4_left
     have h1 := lookup_wtVariants_le hvar
     simp only [wtShape, wtVariant] at h1 ⊢
     omega)

/-- Sequence decode loop: the derived sequence visitor pulls elements through
`ArrayAccessor` until it yields none and decodes each at the element shape. -/
def fromListElems (t : Shape) : List JSValue → Except Error (List SValue)
  | [] => .ok []
  | e :: rest =>
    match from_value t e with
    | .error err => .error err
    | .ok sv => (fromListElems t rest).map (sv :: ·)
termination_by elems => (wtShape t, jsSizeList elems, 0, 0)
decreasing_by
all_goals simp_wf
all_goals (apply lex4_second; simp only [jsSizeList]; omega)

/-- Tuple decode loop: the derived tuple visitor pulls exactly one element per
component shape, failing on a short array; elements past the arity are never
pulled and are silently ignored. -/
def fromTupleElems : List Shape → List JSValue → Except Error (List SValue)
  | [], _ => .ok []
  | _ :: _, [] => .error (.custom "invalid length")
  | t :: ts, e :: es =>
    match from_value t e with
    | .error err => .error err
    | .ok sv => (fromTupleElems ts es).map (sv :: ·)
termination_by ts elems => (wtShapes ts, jsSizeList elems, 0, 0)
decreasing_by
all_goals simp_wf
all_goals (apply lex4_left; simp only [wtShapes]; omega)

/-- Map decode loop over the key snapshot: per key, the derived map visitor
decodes the key (a snapshot string) with a fresh key deserializer, then reads
the property with get_property and decodes it at the value shape. -/
def fromMapEntries (vsh : Shape) (obj : JSValue) :
    List String → Except Error (List (String × SValue))
  | [] => .ok []
  | k :: rest =>
    match hv : getPropertyStr obj k with
    | .error st => .error (.napi st)
    | .ok val =>
      match from_value vsh val with
      | .error err => .error err
      | .ok sv => (fromMapEntries vsh obj rest).map ((k, sv) :: ·)
termination_by keys => (wtShape vsh, jsSize obj, 0, keys.length)
decreasing_by
all_goals simp_wf
all_goals first
  | (apply lex4_second; exact getPropertyStr_jsSize_lt hv)
  | (apply lex4_fourth; omega)

/-- Struct decode loop over the key snapshot: known field keys are decoded at
the field shape after a duplicate check, unknown keys read the property and
discard it through deserialize_ignored_any (which always succeeds). -/
def fromStructFields (fs : List (String × Shape)) (obj : JSValue) :
    List String → List (String × SValue) → Except Error (List (String × SValue))
  | [], seen => finishStruct fs seen
  | k :: rest, seen =>
    match hf : fs.lookup k with
    | some fsh =>
      if (seen.lookup k).isSome then .error (.custom ("duplicate field " ++ k))
      else
        match hv : getPropertyStr obj k with
        | .error st => .error (.napi st)
        | .ok val =>
          match from_value fsh val with
          | .error err => .error err
          | .ok sv => fromStructFields fs obj rest ((k, sv) :: seen)
    | none =>
      match getPropertyStr obj k with
      | .error st => .error (.napi st)
      | .ok _ => fromStructFields fs obj rest seen
termination_by keys seen => (1 + wtFields fs, jsSize obj, 0, keys.length)
decreasing_by
all_goals simp_wf
all_goals first
  | (apply lex4_left
     have h1 := lookup_wtFields_le hf
     omega)
  | (apply lex4_fourth; omega)
end

/-! ## Accessors (de.rs) and the two-phase object protocols

`ArrayAccessor` and `ObjectAccessor` are modelled as the state machines of
de.rs; the Rust methods mutate `self`, the model returns the updated state.
Each operation additionally reports the list of N-API primitive calls it issued
(`JsOp`), so that snapshot-once and no-further-read properties are statements
about the operations actually performed. -/

/-- Primitive N-API calls recorded by accessor operations. -/
inductive JsOp where
  | getPropertyNamesOp
  | getArrayLengthOp
  | getElementOp (i : Nat)
  | getPropertyOp (k : String)
deriving DecidableEq, Repr

/-- ArrayAccessor of de.rs: the array handle, the length read once at
construction, and the cursor. -/
structure ArrayAccessor where
  array : JSValue
  len : Nat
  index : Nat

/-- ArrayAccessor::new: reads the array length via get_array_len exactly once
and starts the cursor at zero. -/
def ArrayAccessor.new (arr : JSValue) : Except Error (ArrayAccessor × List JsOp) :=
  match getArrayLen arr with
  | .error st => .error (.napi st)
  | .ok n => .ok ({ array := arr, len := n, index := 0 }, [.getArrayLengthOp])

/-- ArrayAccessor::next: yields none once the cursor reaches the stored length
without touching the array, otherwise reads one element and advances. -/
def ArrayAccessor.next (a : ArrayAccessor) :
    Except Error (Option JSValue × ArrayAccessor × List JsOp) :=
  if a.len ≤ a.index then .ok (none, a, [])
  else
    match getArrayElement a.array a.index with
    | .error st => .error (.napi st)
    | .ok e => .ok (some e, { a with index := a.index + 1 }, [.getElementOp a.index])

/-- SeqAccess::size_hint of de.rs: `len - index`. -/
def ArrayAccessor.sizeHint (a : ArrayAccessor) : Nat := a.len - a.index

/-- ObjectAccessor of de.rs: the object handle, an ArrayAccessor over the key
snapshot, and the cached key for the two-phase map protocol. -/
structure ObjectAccessor where
  object : JSValue
  keys : ArrayAccessor
  next : Option JSValue

/-- ObjectAccessor::new: materializes the own enumerable key array via
get_property_names exactly once and wraps it in an ArrayAccessor; the key cache
starts empty. -/
def ObjectAccessor.new (obj : JSValue) : Except Error (ObjectAccessor × List JsOp) :=
  match getPropertyNames obj with
  | .error st => .error (.napi st)
  | .ok keysArr =>
    match ArrayAccessor.new keysArr with
    | .error e => .error e
    | .ok (ka, t) => .ok ({ object := obj, keys := ka, next := none }, .getPropertyNamesOp :: t)

/-- MapAccess::next_key_seed: advances the key accessor, caches the raw key
(also when the seed then fails), and decodes the key through a fresh
deserializer at the key shape. -/
def ObjectAccessor.nextKeySeed (sh : Shape) (o : ObjectAccessor) :
    Except Error (Option SValue × ObjectAccessor × List JsOp) :=
  match ArrayAccessor.next o.keys with
  | .error e => .error e
  | .ok (maybeKey, ka, t) =>
    let o' : ObjectAccessor := { o with keys := ka, next := maybeKey }
    match maybeKey with
    | none => .ok (none, o', t)
    | some k =>
      match from_value sh k with
      | .error e => .error e
      | .ok kv => .ok (some kv, o', t)

/-- MapAccess::next_value_seed: fails with MissingKey before touching the
runtime when no key is cached; otherwise reads the property at the cached key
and decodes it.  The cache is not cleared by the source. -/
def ObjectAccessor.nextValueSeed (sh : Shape) (o : ObjectAccessor) :
    Except Error (SValue × List JsOp) :=
  match o.next with
  | none => .error .missingKey
  | some key =>
    match getProperty o.object key with
    | .error st => .error (.napi st)
    | .ok v =>
      match from_value sh v with
      | .error e => .error e
      | .ok sv => .ok (sv, [.getPropertyOp (keyToString key)])

/-- ObjectSerializer of se.rs: the contents of the target object and the cached
key of the two-phase protocol. -/
structure ObjectSerializer where
  value : List (String × JSValue)
  key : Option JSValue

/-- ObjectSerializer::new: a freshly created empty object, no cached key. -/
def ObjectSerializer.new : ObjectSerializer := { value := [], key := none }

/-- SerializeMap::serialize_key: serializes the key and caches it. -/
def ObjectSerializer.serialize_key (o : ObjectSerializer) (k : SValue) :
    Except Error ObjectSerializer :=
  match to_value k with
  | .error e => .error e
  | .ok kv => .ok { o with key := some kv }

/-- SerializeMap::serialize_value: fails with MissingKey before serializing
anything when no key is cached; otherwise serializes the value and writes the
property.  The cache is not cleared by the source. -/
def ObjectSerializer.serialize_value (o : ObjectSerializer) (v : SValue) :
    Except Error ObjectSerializer :=
  match o.key with
  | none => .error .missingKey
  | some kv =>
    match to_value v with
    | .error e => .error e
    | .ok jv => .ok { o with value := setProp o.value (keyToString kv) jv }

/-- Accessor states reachable from a given state by next steps. -/
inductive ArrReach : ArrayAccessor → ArrayAccessor → Prop where
  | refl (a : ArrayAccessor) : ArrReach a a
  | step {a b c : ArrayAccessor} {r : Option JSValue} {t : List JsOp} :
      ArrayAccessor.next a = .ok (r, b, t) → ArrReach b c → ArrReach a c

/-- Wire shape of an example enum with struct variants, in the style of
Shape::Circle of the spec. -/
def shapeEnum : Shape :=
  .enum [("Circle", .structV [("radius", .f64)]), ("Rect", .structV [("w", .f64), ("h", .f64)])]

/-- Wire shape of an example enum with unit variants, in the style of
Color::Red of the spec. -/
def colorEnum : Shape := .enum [("Red", .unit), ("Green", .unit)]

/-- True when the integer value inhabits the Rust integer type of the width. -/
def intFits (w : IntWidth) (v : Int) : Prop := rustMin w ≤ v ∧ v ≤ rustMax w

/-! ## Bridge between the accessor machines and the decode loops

On the immutable value model the decode loops of `from_value` traverse the
element and key snapshots directly; the next theorems check that this is
exactly the net behavior of the accessor machines. -/

/-- A fresh ArrayAccessor over a model array stores the element count as its
length and starts at index zero. -/
theorem arrayAccessor_fresh (elems : List JSValue) :
    ArrayAccessor.new (.array elems) =
      .ok (⟨.array elems, elems.length, 0⟩, [.getArrayLengthOp]) := rfl

/-- A mid-run ArrayAccessor step over a model array yields exactly the element
at the cursor and advances by one, so a full run yields the elements in order:
the traversal the sequence decode loop is written against. -/
theorem arrayAccessor_next_element (elems : List JSValue) (i : Nat)
    (h : i < elems.length) :
    ArrayAccessor.next ⟨.array elems, elems.length, i⟩ =
      .ok (some (elems.getD i .undefined),
           ⟨.array elems, elems.length, i + 1⟩, [.getElementOp i]) := by
  simp [ArrayAccessor.next, getArrayElement]
  omega

/-- The key snapshot wrapped by a fresh ObjectAccessor over a model object is
the string array of the field names in insertion order: the snapshot the map
and struct decode loops are written against. -/
theorem objectAccessor_fresh (fields : List (String × JSValue)) :
    ObjectAccessor.new (.object fields) =
      .ok (⟨.object fields,
            ⟨.array ((fields.map Prod.fst).map .string), (fields.map Prod.fst).length, 0⟩,
            none⟩,
           [.getPropertyNamesOp, .getArrayLengthOp]) := by
  simp [ObjectAccessor.new, ArrayAccessor.new, getPropertyNames, propertyKeysE, getArrayLen,
    Except.map]

/-- The property read performed by next_value_seed at a cached snapshot key is
the lookup by that key: the read the map and struct decode loops are written
against. -/
theorem getProperty_object_lookup (fields : List (String × JSValue)) (k : String) :
    getProperty (.object fields) (.string k) =
      .ok ((fields.lookup k).getD .undefined) := rfl

/-! ## Claim theorems -/

/-- C7: for every Option target shape, a dynamic value of kind Null or
Undefined decodes to None without error, and a value of any other kind tag is
decoded as Some by recursing on the same value; neither null nor undefined is
ever a decode error for an option. -/
theorem option_decode_nullish_none (t : Shape) (v : JSValue) :
    from_value (.option t) v =
      if isNullish v then .ok .vNone else (from_value t v).map .vSome := by
  cases v <;> simp [from_value, isNullish, typeofValue]

/-- C8: decoding the unit shape or a unit struct succeeds exactly on kind tags
Null and Undefined, and fails with the ExpectedNull error on every other kind
tag. -/
theorem unit_decode_expects_null (v : JSValue) :
    (from_value .unit v = if isNullish v then .ok .vUnit else .error .expectedNull)
    ∧ (from_value .unitStruct v =
        if isNullish v then .ok .vUnitStruct else .error .expectedNull) := by
  constructor <;> (cases v <;> simp [from_value, isNullish, typeofValue])

/-- C4: deserialize_any dispatches purely on the runtime kind tag: Undefined and
Null decode as unit, Boolean as bool, Number as f64, String as string, Object
as map, and every other kind tag fails with exactly the UnsupportedType error
carrying that tag. -/
theorem deserialize_any_dispatch (v : JSValue) :
    ((typeofValue v = .undefined ∨ typeofValue v = .null) →
      from_value .dyn v = .ok .vUnit)
    ∧ (∀ b, v = .boolean b → from_value .dyn v = .ok (.vBool b))
    ∧ (∀ q, v = .number q → from_value .dyn v = .ok (.vF64 q))
    ∧ (∀ s, v = .string s → from_value .dyn v = .ok (.vStr s))
    ∧ (typeofValue v = .object →
        from_value .dyn v =
          match propertyKeysE v with
          | .error st => .error (.napi st)
          | .ok keys => (fromMapEntries .dyn v keys).map .vMap)
    ∧ ((typeofValue v = .function ∨ typeofValue v = .symbol ∨
        typeofValue v = .external ∨ typeofValue v = .bigint) →
        from_value .dyn v = .error (.unsupportedType (typeofValue v))) := by
  refine ⟨?_, ?_, ?_, ?_, ?_, ?_⟩ <;>
    cases v <;>
      simp [from_value, typeofValue, propertyKeysE, getValueBool, getValueDouble, getValueString]

/-- C4 witness: the dispatch theorem applied at concrete values, in particular
a function value fails with UnsupportedType(function). -/
theorem deserialize_any_dispatch_witness :
    from_value .dyn (.function 0) = .error (.unsupportedType .function)
    ∧ from_value .dyn (.boolean true) = .ok (.vBool true)
    ∧ from_value .dyn .null = .ok .vUnit :=
  ⟨(deserialize_any_dispatch (.function 0)).2.2.2.2.2 (by simp [typeofValue]),
   (deserialize_any_dispatch (.boolean true)).2.1 true rfl,
   (deserialize_any_dispatch .null).1 (by simp [typeofValue])⟩

/-- C6: in both directions of the two-phase map protocol, a value step with no
cached key fails with MissingKey and performs no runtime operation: a fresh
ObjectAccessor has an empty cache and next_value_seed on an empty cache errors
with MissingKey; a fresh ObjectSerializer has an empty cache and
serialize_value on an empty cache errors with MissingKey; next_key_seed fills
the cache exactly when it yields a key. -/
theorem map_two_phase_missing_key :
    (∀ obj o t, ObjectAccessor.new obj = .ok (o, t) → o.next = none)
    ∧ (∀ sh o, o.next = none →
        ObjectAccessor.nextValueSeed sh o = .error .missingKey)
    ∧ (ObjectSerializer.new.key = none)
    ∧ (∀ o v, o.key = none →
        ObjectSerializer.serialize_value o v = .error .missingKey)
    ∧ (∀ sh o o' t, ObjectAccessor.nextKeySeed sh o = .ok (none, o', t) →
        o'.next = none)
    ∧ (∀ sh o k o' t, ObjectAccessor.nextKeySeed sh o = .ok (some k, o', t) →
        o'.next.isSome) := by
  refine ⟨?_, ?_, rfl, ?_, ?_, ?_⟩
  · intro obj o t h
    rcases hpn : getPropertyNames obj with st | keysArr
    · simp [ObjectAccessor.new, hpn] at h
    · rcases hal : ArrayAccessor.new keysArr with e | ⟨ka, tr⟩ <;>
        simp [ObjectAccessor.new, hpn, hal] at h
      rw [← h.1]
  · intro sh o h
    simp [ObjectAccessor.nextValueSeed, h]
  · intro o v h
    simp [ObjectSerializer.serialize_value, h]
  · intro sh o o' t h
    rcases hn : ArrayAccessor.next o.keys with e | ⟨mk, ka, tr⟩
    · simp [ObjectAccessor.nextKeySeed, hn] at h
    · cases mk with
      | none =>
        simp [ObjectAccessor.nextKeySeed, hn] at h
        rw [← h.1]
      | some k =>
        rcases hfv : from_value sh k with e | kv <;>
          simp [ObjectAccessor.nextKeySeed, hn, hfv] at h
  · intro sh o k o' t h
    rcases hn : ArrayAccessor.next o.keys with e | ⟨mk, ka, tr⟩
    · simp [ObjectAccessor.nextKeySeed, hn] at h
    · cases mk with
      | none => simp [ObjectAccessor.nextKeySeed, hn] at h
      | some k' =>
        rcases hfv : from_value sh k' with e | kv <;>
          simp [ObjectAccessor.nextKeySeed, hn, hfv] at h
        rw [← h.2.1]
        rfl

/-- C6 witness: the missing-key theorem applied to a fresh accessor and a fresh
serializer over an empty object. -/
theorem map_two_phase_missing_key_witness :
    ObjectAccessor.nextValueSeed .str ⟨.object [], ⟨.array [], 0, 0⟩, none⟩ =
      .error .missingKey
    ∧ ObjectSerializer.serialize_value ⟨[], none⟩ (.vBool true) = .error .missingKey :=
  ⟨map_two_phase_missing_key.2.1 .str _ rfl,
   map_two_phase_missing_key.2.2.2.1 _ (.vBool true) rfl⟩

/-- Facts about one successful ArrayAccessor::next step: the stored length and
array handle are untouched, the cursor stays within bounds, and neither the
length nor the key set is re-queried. -/
theorem arrayAccessor_next_ok {a b : ArrayAccessor} {r : Option JSValue}
    {t : List JsOp} (h : ArrayAccessor.next a = .ok (r, b, t)) :
    b.len = a.len ∧ b.array = a.array ∧ (a.index ≤ a.len → b.index ≤ b.len)
    ∧ JsOp.getArrayLengthOp ∉ t ∧ JsOp.getPropertyNamesOp ∉ t := by
  unfold ArrayAccessor.next at h
  split at h
  · simp at h
    obtain ⟨-, hb, ht⟩ := h
    subst hb; subst ht
    simp
  · rcases hel : getArrayElement a.array a.index with st | e <;> rw [hel] at h <;> simp at h
    obtain ⟨-, hb, ht⟩ := h
    subst hb; subst ht
    simp
    omega

/-- Cursor invariant along any run of next steps: the index never exceeds the
length fixed at construction, and the length is never modified. -/
theorem arrReach_invariant {a b : ArrayAccessor} (h0 : a.index ≤ a.len)
    (h : ArrReach a b) : b.index ≤ b.len ∧ b.len = a.len := by
  induction h with
  | refl => exact ⟨h0, rfl⟩
  | step hs _ ih =>
    obtain ⟨hlen, _, hidx, _, _⟩ := arrayAccessor_next_ok hs
    obtain ⟨hc, hclen⟩ := ih (hidx h0)
    exact ⟨hc, hclen.trans hlen⟩

/-- C9: iteration bounds are fixed at construction and never re-queried:
ObjectAccessor::new materializes the key array with exactly one
get_property_names call, ArrayAccessor::new reads the length exactly once, every
state reachable by next steps satisfies index less-or-equal len with size_hint
equal to len minus index and an unchanged len, a next step never issues a
length or key query, and once the cursor has reached the length, next yields
none without issuing any element read. -/
theorem accessor_snapshot_invariants :
    (∀ obj o t, ObjectAccessor.new obj = .ok (o, t) →
      t.count .getPropertyNamesOp = 1
      ∧ t = [.getPropertyNamesOp, .getArrayLengthOp] ∧ o.keys.index = 0)
    ∧ (∀ arr a t, ArrayAccessor.new arr = .ok (a, t) →
        t = [.getArrayLengthOp] ∧ a.index = 0 ∧ a.index ≤ a.len)
    ∧ (∀ arr a t b, ArrayAccessor.new arr = .ok (a, t) → ArrReach a b →
        b.index ≤ b.len ∧ b.sizeHint = b.len - b.index ∧ b.len = a.len)
    ∧ (∀ a r b t, ArrayAccessor.next a = .ok (r, b, t) →
        b.len = a.len ∧ JsOp.getArrayLengthOp ∉ t ∧ JsOp.getPropertyNamesOp ∉ t)
    ∧ (∀ a : ArrayAccessor, a.index = a.len →
        ArrayAccessor.next a = .ok (none, a, [])) := by
  have hnew : ∀ arr a t, ArrayAccessor.new arr = .ok (a, t) →
      t = [.getArrayLengthOp] ∧ a.index = 0 ∧ a.index ≤ a.len := by
    intro arr a t h
    rcases hal : getArrayLen arr with st | n <;> simp [ArrayAccessor.new, hal] at h
    rw [← h.1]
    simp [← h.2]
  refine ⟨?_, hnew, ?_, ?_, ?_⟩
  · intro obj o t h
    rcases hpn : getPropertyNames obj with st | keysArr <;>
      simp [ObjectAccessor.new, hpn] at h
    rcases hna : ArrayAccessor.new keysArr with e | ⟨ka, tr⟩ <;> rw [hna] at h <;> simp at h
    obtain ⟨htr, hidx, -⟩ := hnew keysArr ka tr hna
    obtain ⟨ho, ht⟩ := h
    subst ho; subst ht; subst htr
    exact ⟨by simp, rfl, hidx⟩
  · intro arr a t b hn hr
    obtain ⟨_, h0, hle⟩ := hnew arr a t hn
    obtain ⟨hb, hblen⟩ := arrReach_invariant hle hr
    exact ⟨hb, rfl, hblen⟩
  · intro a r b t h
    obtain ⟨h1, _, _, h4, h5⟩ := arrayAccessor_next_ok h
    exact ⟨h1, h4, h5⟩
  · intro a h
    simp [ArrayAccessor.next, h]

/-- C9 witness: the snapshot theorem applied to a singleton array and one
reachability step. -/
theorem accessor_snapshot_invariants_witness :
    (∃ o t, ObjectAccessor.new (.object [("a", .number 1)]) = .ok (o, t)
      ∧ t.count JsOp.getPropertyNamesOp = 1)
    ∧ ArrayAccessor.next ⟨.array [.number 1], 1, 1⟩ = .ok (none, ⟨.array [.number 1], 1, 1⟩, []) := by
  constructor
  · refine ⟨⟨.object [("a", .number 1)], ⟨.array [.string "a"], 1, 0⟩, none⟩,
      [.getPropertyNamesOp, .getArrayLengthOp], rfl, ?_⟩
    exact (accessor_snapshot_invariants.1 (.object [("a", .number 1)])
      ⟨.object [("a", .number 1)], ⟨.array [.string "a"], 1, 0⟩, none⟩
      [.getPropertyNamesOp, .getArrayLengthOp] rfl).1
  · exact accessor_snapshot_invariants.2.2.2.2 ⟨.array [.number 1], 1, 1⟩ rfl

/-- Decoding the Circle wrapper object at the enum shape fails with
StringExpected: the variant identifier is deserialized from the wrapper object
itself. -/
theorem circle_object_decode_eq :
    from_value shapeEnum (.object [("Circle", .object [("radius", .number 2)])]) =
      .error (.napi .stringExpected) := by
  simp [from_value, shapeEnum, getPropertyNames, propertyKeysE, getArrayElement,
    getProperty, getPropertyStr, keyToString, getValueString, Except.map]

/-- Decoding the double 3.7 at i32 yields 3 by checked truncation. -/
theorem i32_decode_37_10 :
    from_value (.int .i32) (.number ((37 : ℚ) / 10)) = .ok (.vInt .i32 3) := by
  simp [from_value, getValueDouble]
  norm_num [approxCast, boundMinF, boundMaxF, rustMin, rustMax, satAs, ratTrunc]

/-- C5: the encode directions of the enum wire convention hold (a unit variant
encodes to the string of its name, a struct variant to the one-key wrapper
object) and the unit-variant string decodes back; but decoding the
struct-variant wrapper object fails with the runtime StringExpected error
instead of yielding the variant, because EnumAccess::variant_seed deserializes
the variant identifier from the wrapper object itself rather than from key
element 0, and get_value_string fails on every non-String value. -/
theorem enum_wire_shape_decode_bug :
    to_value (.vUnitVariant "Red") = .ok (.string "Red")
    ∧ to_value (.vStructVariant "Circle" [("radius", .vF64 2)]) =
        .ok (.object [("Circle", .object [("radius", .number 2)])])
    ∧ from_value colorEnum (.string "Red") = .ok (.vUnitVariant "Red")
    ∧ from_value shapeEnum (.object [("Circle", .object [("radius", .number 2)])]) =
        .error (.napi .stringExpected) := by
  refine ⟨rfl, rfl, ?_, circle_object_decode_eq⟩
  simp [from_value, colorEnum, decodeUnitVariantStr, List.lookup]

/-- C10: decoding an enum from a non-String object does not treat element 0 of
the property-name snapshot as the variant name with later properties silently
ignored; instead every such decode fails with Napi(StringExpected), because the
variant identifier is deserialized from the enclosing object itself.  The
snapshot of the two-property input is the two keys in insertion order. -/
theorem enum_object_decode_not_first_key :
    from_value shapeEnum
      (.object [("Circle", .object [("radius", .number 2)]), ("extra", .number 1)]) =
      .error (.napi .stringExpected)
    ∧ propertyKeysE
        (.object [("Circle", .object [("radius", .number 2)]), ("extra", .number 1)]) =
      .ok ["Circle", "extra"] := by
  refine ⟨?_, rfl⟩
  simp [from_value, shapeEnum, getPropertyNames, propertyKeysE, getArrayElement,
    getProperty, getPropertyStr, keyToString, getValueString, Except.map]

/-- C1: the decode-encode round trip fails on a value whose shape is in the
claimed class: encoding a struct-variant enum value succeeds, but decoding the
result fails with Napi(StringExpected) instead of returning the value (the
variant_seed slip); a plain struct value from the same class round-trips. -/
theorem roundtrip_fails_on_struct_variant :
    ((to_value (.vStructVariant "Circle" [("radius", .vF64 2)])).bind
        (from_value shapeEnum)) = .error (.napi .stringExpected)
    ∧ ((to_value (.vStruct [("ok", .vBool true)])).bind
        (from_value (.struct [("ok", .bool)]))) = .ok (.vStruct [("ok", .vBool true)]) := by
  constructor
  · have henc : to_value (.vStructVariant "Circle" [("radius", .vF64 2)]) =
        .ok (.object [("Circle", .object [("radius", .number 2)])]) := rfl
    rw [henc]
    simpa [Except.bind] using circle_object_decode_eq
  · have henc : to_value (.vStruct [("ok", .vBool true)]) =
        .ok (.object [("ok", .boolean true)]) := rfl
    rw [henc]
    simp [Except.bind, from_value, propertyKeysE, fromStructFields, finishStruct,
      List.lookup, getPropertyStr, getValueBool, Except.map]

/-- C2 counterexample: serializing i64::MAX fails with the range error produced
by the checked i64-to-f64 widening; the widening step is not error-free. -/
theorem serialize_i64_max_errors :
    to_value (.vInt .i64 9223372036854775807) =
      .error (.i64Error (.posOverflow 9223372036854775807)) := rfl

/-- C2 amended: the serializer widens every fixed-width integer to a double
Number, unconditionally for the widths i8-i32 and u8-u32; for i64 and u64 the
widening is a checked conversion that succeeds exactly on the integer-exact
double range of magnitude 2^53 and otherwise fails with the i64 or u64 range
error; narrowing on decode is checked separately. -/
theorem serialize_int_widening (w : IntWidth) (v : Int) (h : intFits w v) :
    ((w ≠ .i64 ∧ w ≠ .u64) → to_value (.vInt w v) = .ok (.number (v : ℚ)))
    ∧ ((-maxSafeInt ≤ v ∧ v ≤ maxSafeInt) → to_value (.vInt w v) = .ok (.number (v : ℚ)))
    ∧ (w = .i64 → maxSafeInt < v →
        to_value (.vInt w v) = .error (.i64Error (.posOverflow v)))
    ∧ (w = .i64 → v < -maxSafeInt →
        to_value (.vInt w v) = .error (.i64Error (.negOverflow v)))
    ∧ (w = .u64 → maxSafeInt < v → to_value (.vInt w v) = .error (.u64Error v)) := by
  refine ⟨?_, ?_, ?_, ?_, ?_⟩
  · rintro ⟨h1, h2⟩
    cases w <;> simp [to_value] <;> first
      | rfl
      | exact absurd rfl h1
      | exact absurd rfl h2
  · rintro ⟨hl, hr⟩
    simp only [maxSafeInt] at hl hr
    cases w <;> simp only [to_value, maxSafeInt] <;>
      first
      | rfl
      | (split_ifs <;> first | rfl | omega)
  · rintro rfl hv
    simp only [maxSafeInt] at hv
    simp only [to_value, maxSafeInt]
    split_ifs <;> first | rfl | omega
  · rintro rfl hv
    simp only [maxSafeInt] at hv
    simp only [to_value, maxSafeInt]
    split_ifs <;> first | rfl | omega
  · rintro rfl hv
    simp only [maxSafeInt] at hv
    simp only [to_value, maxSafeInt]
    split_ifs <;> first | rfl | omega

/-- C2 witness: the widening theorem at concrete inputs: i32 widening succeeds,
i64 widening of the first integer past 2^53 fails. -/
theorem serialize_int_widening_witness :
    to_value (.vInt .i32 7) = .ok (.number ((7 : Int) : ℚ))
    ∧ to_value (.vInt .i64 9007199254740993) =
        .error (.i64Error (.posOverflow 9007199254740993)) :=
  ⟨(serialize_int_widening .i32 7 ⟨by decide, by decide⟩).1 ⟨by decide, by decide⟩,
   (serialize_int_widening .i64 9007199254740993 ⟨by decide, by decide⟩).2.2.1 rfl
      (by decide)⟩

/-- C3 counterexample: decoding the Number 3.7 as i32 yields 3, by checked
truncation toward zero, not the claimed 4; and encoding i64::MAX already fails
at the encode step, so the encode-then-decode pipeline surfaces the i64 range
error rather than a decode-side error on a produced Number. -/
theorem decode_i32_truncates_not_rounds :
    from_value (.int .i32) (.number ((37 : ℚ) / 10)) = .ok (.vInt .i32 3)
    ∧ from_value (.int .i32) (.number ((37 : ℚ) / 10)) ≠ .ok (.vInt .i32 4)
    ∧ ((to_value (.vInt .i64 9223372036854775807)).bind (from_value (.int .i32))) =
        .error (.i64Error (.posOverflow 9223372036854775807)) := by
  refine ⟨i32_decode_37_10, ?_, rfl⟩
  rw [i32_decode_37_10]
  intro hc
  simp at hc

/-- C3 amended: encoding i64::MAX fails at encode with the i64 range error; an
i32 decode of a double beyond either i32 bound fails with the float range error
carrying the input (no wraparound), and an in-range double is truncated toward
zero, so 3.7 decodes to 3. -/
theorem decode_i32_checked_truncation :
    ((to_value (.vInt .i64 9223372036854775807)).bind (from_value (.int .i32))) =
      .error (.i64Error (.posOverflow 9223372036854775807))
    ∧ (∀ q : ℚ, (2147483647 : ℚ) < q →
        from_value (.int .i32) (.number q) = .error (.floatError (.posOverflow q)))
    ∧ (∀ q : ℚ, q < (-2147483648 : ℚ) →
        from_value (.int .i32) (.number q) = .error (.floatError (.negOverflow q)))
    ∧ from_value (.int .i32) (.number ((37 : ℚ) / 10)) = .ok (.vInt .i32 3) := by
  refine ⟨rfl, ?_, ?_, i32_decode_37_10⟩
  · intro q hq
    simp [from_value, getValueDouble, approxCast, boundMinF, boundMaxF, rustMin, rustMax]
    rw [if_neg (by linarith), if_pos (by linarith)]
  · intro q hq
    simp [from_value, getValueDouble, approxCast, boundMinF, boundMaxF, rustMin, rustMax]
    rw [if_pos (by linarith)]

/-- C3 witness: the amended theorem applied at the double 2^63, the value the
lost i64::MAX widening would have produced. -/
theorem decode_i32_checked_truncation_witness :
    (2147483647 : ℚ) < 9223372036854775808
    ∧ from_value (.int .i32) (.number (9223372036854775808 : ℚ)) =
        .error (.floatError (.posOverflow (9223372036854775808 : ℚ))) :=
  ⟨by norm_num, decode_i32_checked_truncation.2.1 _ (by norm_num)⟩

end NeonSerde
